import Mathlib

/-!
Shallow embedding of the file-backed cached configuration value source
(src/src/lib.rs of sane-technology/k8s-config).

The Rust struct FileSource has interior mutability: refresh operations
mutate the cached value and the last-refresh timestamp in place and
return a Result.  The embedding makes the state passing explicit: every
operation takes the current FileSource state and returns the new state
paired with the Result.  Time (std::time::Instant / Duration) is
embedded as Nat; the current instant is a parameter of each call.  The
filesystem at the moment of a call is a FileState: the file is missing,
or opening/reading fails with an I/O error, or reading yields the raw
contents.  The parser of the target type T (the FromStr bound) is a
parameter parse : String → Except E T.  The compile-time REQUIRED flag
of the Rust type is a Bool parameter of the operations.
-/

namespace K8sConfig

/-- Whitespace trimming of the raw file contents (str.trim in the
source), implemented structurally over the character list so that it
evaluates on concrete strings. -/
def trim (s : String) : String :=
  String.mk (((s.data.dropWhile Char.isWhitespace).reverse.dropWhile
    Char.isWhitespace).reverse)

/-- The mutable state of a FileSource<T, REQUIRED>: the backing file
path, the cached optional value, the optional refresh interval, the
optional last-refresh instant, and the auto-trim flag. -/
structure FileSource (T : Type) where
  filepath : String
  value : Option T
  refresh_interval : Option Nat
  last_refresh : Option Nat
  auto_trim : Bool
deriving DecidableEq

/-- The filesystem as seen by one refresh call: the file at the path of
the source is missing, or exists but opening/reading it fails with an
I/O error, or exists and fully reads to the given raw contents. -/
inductive FileState (IOE : Type) where
  | missing
  | ioError (e : IOE)
  | contents (raw : String)
deriving DecidableEq

/-- RefreshFileSourceError from the source: I/O failure while reading,
a failure of the parser of T carrying the error of that parser, or no
value (the backing file of a required source does not exist). -/
inductive RefreshFileSourceError (IOE E : Type) where
  | IOError (e : IOE)
  | ParseError (e : E)
  | NoValue
deriving DecidableEq

/-- ValueError from the source: the defensive value-access-level
NoValue, or a refresh-level error wrapped unchanged. -/
inductive ValueError (IOE E : Type) where
  | NoValue
  | RefreshFileSourceError (e : RefreshFileSourceError IOE E)
deriving DecidableEq

variable {T E IOE : Type}

/-- FileSource::from_path: bind a path; no cached value, no
last-refresh instant, no refresh interval, auto-trim on.  No I/O is
performed (the embedding takes no FileState). -/
def from_path (filepath : String) : FileSource T :=
  { filepath := filepath
    auto_trim := true
    value := none
    refresh_interval := none
    last_refresh := none }

/-- FileSource::set_refresh_interval: sets or clears the refresh
interval and returns the source. -/
def set_refresh_interval (s : FileSource T) (interval : Option Nat) :
    FileSource T :=
  { s with refresh_interval := interval }

/-- FileSource::set_auto_trim: toggles whitespace trimming and returns
the source. -/
def set_auto_trim (s : FileSource T) (auto_trim : Bool) : FileSource T :=
  { s with auto_trim := auto_trim }

/-- FileSource::set_value (private): store the given optional value in
the cache and stamp last_refresh with the current instant. -/
def set_value (s : FileSource T) (value : Option T) (now : Nat) :
    FileSource T :=
  { s with value := value, last_refresh := some now }

/-- FileSource::refresh_value with REQUIRED as the parameter R:
if the file does not exist, a required source fails with NoValue and an
optional source caches the absent value and succeeds; an I/O failure
propagates as IOError; otherwise the raw contents, trimmed when
auto_trim is set, are parsed, a parse failure propagates as ParseError,
and a parsed value is stored with the current instant. -/
def refresh_value (R : Bool) (parse : String → Except E T)
    (fs : FileState IOE) (now : Nat) (s : FileSource T) :
    FileSource T × Except (RefreshFileSourceError IOE E) Unit :=
  match fs with
  | FileState.missing =>
    if R then (s, Except.error RefreshFileSourceError.NoValue)
    else (set_value s none now, Except.ok ())
  | FileState.ioError e => (s, Except.error (RefreshFileSourceError.IOError e))
  | FileState.contents read_buf =>
    let to_parse := if s.auto_trim then trim read_buf else read_buf
    match parse to_parse with
    | Except.error e => (s, Except.error (RefreshFileSourceError.ParseError e))
    | Except.ok parsed => (set_value s (some parsed) now, Except.ok ())

/-- The refresh condition of refresh_on_timeout, exactly as the source
combines is_none_or and is_some_and: absent last_refresh always
refreshes; a present one refreshes when an interval is configured and
last_refresh + refresh_interval is strictly before the current
instant. -/
def refreshDueB (s : FileSource T) (now : Nat) : Bool :=
  s.last_refresh.elim true (fun last_refresh =>
    s.refresh_interval.elim false (fun refresh_interval =>
      decide (last_refresh + refresh_interval < now)))

/-- FileSource::refresh_on_timeout: refresh when no refresh has ever
happened (is_none_or), or when an interval is configured (is_some_and)
and last_refresh + refresh_interval is strictly before the current
instant; otherwise do nothing and succeed. -/
def refresh_on_timeout (R : Bool) (parse : String → Except E T)
    (fs : FileState IOE) (now : Nat) (s : FileSource T) :
    FileSource T × Except (RefreshFileSourceError IOE E) Unit :=
  if refreshDueB s now then
    refresh_value R parse fs now s
  else
    (s, Except.ok ())

/-- ValueSource::value for FileSource<T, true>: refresh on timeout,
propagate a refresh error wrapped; then return the cached value when
present, else fail with the defensive value-level NoValue. -/
def value_required (parse : String → Except E T) (fs : FileState IOE)
    (now : Nat) (s : FileSource T) :
    FileSource T × Except (ValueError IOE E) T :=
  match refresh_on_timeout true parse fs now s with
  | (s2, Except.error e) =>
    (s2, Except.error (ValueError.RefreshFileSourceError e))
  | (s2, Except.ok _) =>
    match s2.value with
    | none => (s2, Except.error ValueError.NoValue)
    | some v => (s2, Except.ok v)

/-- ValueSource::value for FileSource<T, false>: refresh on timeout,
propagate a refresh error wrapped; then return the cached optional
value as is. -/
def value_optional (parse : String → Except E T) (fs : FileState IOE)
    (now : Nat) (s : FileSource T) :
    FileSource T × Except (ValueError IOE E) (Option T) :=
  match refresh_on_timeout false parse fs now s with
  | (s2, Except.error e) =>
    (s2, Except.error (ValueError.RefreshFileSourceError e))
  | (s2, Except.ok _) => (s2, Except.ok s2.value)

/-- The states of a required FileSource reachable from construction by
the public operations, with the parser of T fixed and the filesystem
state and current instant free at each step. -/
inductive ReachableReq {T E IOE : Type} (parse : String → Except E T) :
    FileSource T → Prop where
  | init (p : String) : ReachableReq parse (from_path p)
  | setInterval {s : FileSource T} (i : Option Nat) :
      ReachableReq parse s →
      ReachableReq parse (set_refresh_interval s i)
  | setTrim {s : FileSource T} (b : Bool) :
      ReachableReq parse s →
      ReachableReq parse (set_auto_trim s b)
  | refresh {s : FileSource T} (fs : FileState IOE) (now : Nat) :
      ReachableReq parse s →
      ReachableReq parse (refresh_value true parse fs now s).1
  | timeout {s : FileSource T} (fs : FileState IOE) (now : Nat) :
      ReachableReq parse s →
      ReachableReq parse (refresh_on_timeout true parse fs now s).1
  | val {s : FileSource T} (fs : FileState IOE) (now : Nat) :
      ReachableReq parse s →
      ReachableReq parse (value_required parse fs now s).1

/-- The refresh condition in the words of the spec: no refresh has ever
happened, or a refresh interval is configured and last refresh plus
interval is strictly earlier than the current instant. -/
def refreshDueSpec (s : FileSource T) (now : Nat) : Prop :=
  s.last_refresh = none ∨
    ∃ lr ri, s.last_refresh = some lr ∧ s.refresh_interval = some ri ∧
      lr + ri < now

instance (s : FileSource T) (now : Nat) : Decidable (refreshDueSpec s now) :=
  decidable_of_iff (refreshDueB s now = true) (by
    unfold refreshDueB refreshDueSpec
    rcases h1 : s.last_refresh with _ | lr <;>
      rcases h2 : s.refresh_interval with _ | ri <;> simp [h1, h2])

/-- A concrete FromStr collaborator for witnesses and counterexamples:
the parser of bool accepts exactly the strings true and false and
reports the offending string otherwise. -/
def parseBool (s : String) : Except String Bool :=
  if s = "true" then Except.ok true
  else if s = "false" then Except.ok false
  else Except.error s

/-- A source of Bool holding the cached value true from a refresh at
instant 0, with a refresh interval of 5. -/
def staleBoolSource : FileSource Bool :=
  { filepath := "conf", value := some true, refresh_interval := some 5,
    last_refresh := some 0, auto_trim := true }

/-- A source of Bool holding the cached value true from a refresh at
instant 0, with no refresh interval: its cache is sticky. -/
def stickyBoolSource : FileSource Bool :=
  { filepath := "conf", value := some true, refresh_interval := none,
    last_refresh := some 0, auto_trim := true }

lemma refreshDueB_iff (s : FileSource T) (now : Nat) :
    refreshDueB s now = true ↔ refreshDueSpec s now := by
  unfold refreshDueB refreshDueSpec
  rcases h1 : s.last_refresh with _ | lr <;>
    rcases h2 : s.refresh_interval with _ | ri <;> simp [h1, h2]

lemma refreshDueB_mono (s : FileSource T) {now now2 : Nat}
    (h : refreshDueB s now = true) (hle : now ≤ now2) :
    refreshDueB s now2 = true := by
  unfold refreshDueB at h ⊢
  rcases h1 : s.last_refresh with _ | lr <;>
    rcases h2 : s.refresh_interval with _ | ri <;>
      simp [h1, h2] at h ⊢
  omega

/-- Claim C1: refresh_on_timeout performs the refresh exactly when
last_refresh is absent, or an interval is configured and last refresh
plus interval is strictly earlier than the current instant; in that
case its result (state and error or success) is exactly the result of
refresh_value, and otherwise it leaves the state unchanged and
succeeds. -/
theorem refresh_on_timeout_policy (R : Bool) (parse : String → Except E T)
    (fs : FileState IOE) (now : Nat) (s : FileSource T) :
    refresh_on_timeout R parse fs now s =
      if refreshDueSpec s now then refresh_value R parse fs now s
      else (s, Except.ok ()) := by
  unfold refresh_on_timeout
  by_cases h : refreshDueSpec s now
  · rw [if_pos h, if_pos ((refreshDueB_iff s now).mpr h)]
  · rw [if_neg h, if_neg (fun hb => h ((refreshDueB_iff s now).mp hb))]

/-- Claim C9: from_path builds a source with the path, an empty cache,
no last-refresh instant, no refresh interval and auto-trim on; each
mutator changes exactly its own configuration field and returns the
source; none of the three touches the filesystem or can fail (they are
total functions of the state alone). -/
theorem construction_and_mutators (p : String) (s : FileSource T)
    (i : Option Nat) (b : Bool) :
    (from_path p : FileSource T) =
      { filepath := p, value := none, refresh_interval := none,
        last_refresh := none, auto_trim := true }
    ∧ set_refresh_interval s i = { s with refresh_interval := i }
    ∧ set_auto_trim s b = { s with auto_trim := b } :=
  ⟨rfl, rfl, rfl⟩

/-- Claim C2, counterexample: a source with refresh interval 5 and a
successful refresh at instant 0 caching true, accessed at instant 5
(exactly last refresh plus interval) while the file now holds false:
the claim requires an access at or after that instant to re-read and
reflect the new content, but the code compares strictly, performs no
re-read, and returns the old cached true. -/
theorem staleness_law_counterexample :
    value_required parseBool (FileState.contents "false" : FileState Unit) 5
        staleBoolSource
      = (staleBoolSource, Except.ok true)
    ∧ parseBool (trim "false") = Except.ok false
    ∧ staleBoolSource.value = some true
    ∧ staleBoolSource.last_refresh = some 0
    ∧ staleBoolSource.refresh_interval = some 5
    ∧ true ≠ false :=
  ⟨rfl, rfl, rfl, rfl, rfl, by decide⟩

/-- Claim C2 as amended: with refresh interval d and a successful
refresh at instant t0 caching v, an access at or before t0 + d returns
the cached value with the state unchanged whatever the file now holds,
and an access strictly after t0 + d re-reads the file and reflects the
newly parsed content. -/
theorem staleness_law_amended (parse : String → Except E T)
    (fs : FileState IOE) (now d t0 : Nat) (s : FileSource T) (v w : T)
    (c : String) (hd : s.refresh_interval = some d)
    (ht : s.last_refresh = some t0) (hv : s.value = some v) :
    (now ≤ t0 + d →
        value_required parse fs now s = (s, Except.ok v)
      ∧ value_optional parse fs now s = (s, Except.ok (some v)))
    ∧ (t0 + d < now →
        parse (if s.auto_trim then trim c else c) = Except.ok w →
          value_required parse (FileState.contents c : FileState IOE) now s
              = (set_value s (some w) now, Except.ok w)
        ∧ value_optional parse (FileState.contents c : FileState IOE) now s
              = (set_value s (some w) now, Except.ok (some w))) := by
  constructor
  · intro hnow
    have hdue : refreshDueB s now = false := by
      unfold refreshDueB
      rw [ht, hd]
      simp
      omega
    constructor
    · simp [value_required, refresh_on_timeout, hdue, hv]
    · simp [value_optional, refresh_on_timeout, hdue, hv]
  · intro hlt hp
    have hdue : refreshDueB s now = true := by
      unfold refreshDueB
      rw [ht, hd]
      simp [hlt]
    constructor
    · simp [value_required, refresh_on_timeout, hdue, refresh_value, hp,
        set_value]
    · simp [value_optional, refresh_on_timeout, hdue, refresh_value, hp,
        set_value]

theorem staleness_law_amended_witness :
    value_required parseBool (FileState.missing : FileState Unit) 3
        staleBoolSource
      = (staleBoolSource, Except.ok true)
    ∧ value_optional parseBool (FileState.missing : FileState Unit) 3
        staleBoolSource
      = (staleBoolSource, Except.ok (some true)) :=
  (staleness_law_amended parseBool (FileState.missing : FileState Unit) 3 5 0
    staleBoolSource true true "x" rfl rfl rfl).1 (by decide)

/-- Claim C3, counterexample: a required source with a cached value,
a last refresh at instant 0 and no refresh interval, accessed at
instant 10 with the backing file missing: the claim requires every
value call to fail with the NoValue refresh error, but no refresh is
due, so the call succeeds with the old cached value. -/
theorem missing_required_counterexample :
    value_required parseBool (FileState.missing : FileState Unit) 10
        stickyBoolSource
      = (stickyBoolSource, Except.ok true) := rfl

/-- Claim C3 as amended: for a required source whose backing file does
not exist, refresh_value fails with the refresh-level NoValue error and
leaves the whole state, in particular cached_value and
last_refresh_time, exactly as it was; every value call that attempts a
refresh fails with that error wrapped, in particular every call on a
source that has never refreshed (absent last_refresh_time), and once a
value call has failed with it, every later call with the file still
missing fails with it again. -/
theorem missing_required_refresh (parse : String → Except E T) (now : Nat)
    (s : FileSource T) :
    refresh_value true parse (FileState.missing : FileState IOE) now s
        = (s, Except.error RefreshFileSourceError.NoValue)
    ∧ (refreshDueSpec s now →
        value_required parse (FileState.missing : FileState IOE) now s
          = (s, Except.error (ValueError.RefreshFileSourceError
              RefreshFileSourceError.NoValue)))
    ∧ ((value_required parse (FileState.missing : FileState IOE) now s).2
          = Except.error (ValueError.RefreshFileSourceError
              RefreshFileSourceError.NoValue) →
        (value_required parse (FileState.missing : FileState IOE) now s).1 = s
        ∧ ∀ now2, now ≤ now2 →
            value_required parse (FileState.missing : FileState IOE) now2 s
              = (s, Except.error (ValueError.RefreshFileSourceError
                  RefreshFileSourceError.NoValue))) := by
  refine ⟨rfl, ?_, ?_⟩
  · intro h
    have hdue : refreshDueB s now = true := (refreshDueB_iff s now).mpr h
    simp [value_required, refresh_on_timeout, hdue, refresh_value]
  · intro herr
    by_cases hb : refreshDueB s now = true
    · have hval : value_required parse (FileState.missing : FileState IOE)
          now s
          = (s, Except.error (ValueError.RefreshFileSourceError
              RefreshFileSourceError.NoValue)) := by
        simp [value_required, refresh_on_timeout, hb, refresh_value]
      refine ⟨by rw [hval], ?_⟩
      intro now2 hle
      have hb2 := refreshDueB_mono s hb hle
      simp [value_required, refresh_on_timeout, hb2, refresh_value]
    · exfalso
      have hb0 : refreshDueB s now = false := by
        cases hx : refreshDueB s now
        · rfl
        · exact absurd hx hb
      rcases hc : s.value with _ | v <;>
        simp [value_required, refresh_on_timeout, hb0, hc] at herr

/-- Claim C4, counterexample: an optional source with a cached value,
a last refresh at instant 0 and no refresh interval, accessed at
instant 10 with the backing file missing: the claim requires the value
call to return absent, but no refresh is due, so the call returns the
old cached present value. -/
theorem missing_optional_counterexample :
    value_optional parseBool (FileState.missing : FileState Unit) 10
        stickyBoolSource
      = (stickyBoolSource, Except.ok (some true))
    ∧ some true ≠ (none : Option Bool) :=
  ⟨rfl, by decide⟩

/-- Claim C4 as amended: for an optional source whose backing file does
not exist, refresh_value succeeds, caches the absent value and stamps
last_refresh_time with the current instant; every value call that
attempts a refresh returns absent successfully, and no value call with
the file missing ever returns an error. -/
theorem missing_optional_refresh (parse : String → Except E T) (now : Nat)
    (s : FileSource T) :
    refresh_value false parse (FileState.missing : FileState IOE) now s
        = (set_value s none now, Except.ok ())
    ∧ (set_value s none now).value = none
    ∧ (set_value s none now).last_refresh = some now
    ∧ (refreshDueSpec s now →
        value_optional parse (FileState.missing : FileState IOE) now s
          = (set_value s none now, Except.ok none))
    ∧ ∃ o, (value_optional parse (FileState.missing : FileState IOE) now s).2
        = Except.ok o := by
  refine ⟨rfl, rfl, rfl, ?_, ?_⟩
  · intro h
    have hdue : refreshDueB s now = true := (refreshDueB_iff s now).mpr h
    simp [value_optional, refresh_on_timeout, hdue, refresh_value, set_value]
  · by_cases hb : refreshDueB s now = true
    · exact ⟨none, by
        simp [value_optional, refresh_on_timeout, hb, refresh_value,
          set_value]⟩
    · have hb0 : refreshDueB s now = false := by
        cases hx : refreshDueB s now
        · rfl
        · exact absurd hx hb
      exact ⟨s.value, by simp [value_optional, refresh_on_timeout, hb0]⟩

lemma refreshDueB_false_lastSome (s : FileSource T) (now : Nat)
    (h : refreshDueB s now = false) : s.last_refresh.isSome = true := by
  unfold refreshDueB at h
  rcases h1 : s.last_refresh with _ | lr
  · rw [h1] at h
    simp at h
  · simp

lemma refresh_value_keeps_some (parse : String → Except E T)
    (fs : FileState IOE) (now : Nat) (s : FileSource T)
    (h : s.value.isSome = true) :
    (refresh_value true parse fs now s).1.value.isSome = true := by
  cases fs with
  | missing => simpa [refresh_value] using h
  | ioError e => simpa [refresh_value] using h
  | contents c =>
    rcases hp : parse (if s.auto_trim then trim c else c) with e | v <;>
      simp [refresh_value, hp, set_value, h]

lemma refresh_on_timeout_keeps_some (parse : String → Except E T)
    (fs : FileState IOE) (now : Nat) (s : FileSource T)
    (h : s.value.isSome = true) :
    (refresh_on_timeout true parse fs now s).1.value.isSome = true := by
  unfold refresh_on_timeout
  by_cases hb : refreshDueB s now = true
  · simpa [hb] using refresh_value_keeps_some parse fs now s h
  · have hb0 : refreshDueB s now = false := by
      cases hx : refreshDueB s now
      · rfl
      · exact absurd hx hb
    simpa [hb0] using h

lemma value_required_state (parse : String → Except E T) (fs : FileState IOE)
    (now : Nat) (s : FileSource T) :
    (value_required parse fs now s).1
      = (refresh_on_timeout true parse fs now s).1 := by
  unfold value_required
  rcases h : refresh_on_timeout true parse fs now s with ⟨s2, r⟩
  cases r with
  | error e => rfl
  | ok u => rcases hv : s2.value with _ | v <;> simp [hv]

lemma refresh_value_req_inv (parse : String → Except E T) (fs : FileState IOE)
    (now : Nat) (s : FileSource T)
    (ih : s.last_refresh.isSome = true → s.value.isSome = true) :
    (refresh_value true parse fs now s).1.last_refresh.isSome = true →
      (refresh_value true parse fs now s).1.value.isSome = true := by
  cases fs with
  | missing => simpa [refresh_value] using ih
  | ioError e => simpa [refresh_value] using ih
  | contents c =>
    rcases hp : parse (if s.auto_trim then trim c else c) with e | v <;>
      simp [refresh_value, hp, set_value]
    exact ih

lemma reachableReq_cache {T E IOE : Type} {parse : String → Except E T}
    {s : FileSource T} (h : @ReachableReq T E IOE parse s) :
    s.last_refresh.isSome = true → s.value.isSome = true := by
  induction h with
  | init p => intro hl; simp [from_path] at hl
  | setInterval i h2 ih => simpa [set_refresh_interval] using ih
  | setTrim b h2 ih => simpa [set_auto_trim] using ih
  | refresh fs now h2 ih => exact refresh_value_req_inv _ fs now _ ih
  | @timeout s3 fs now h2 ih =>
    unfold refresh_on_timeout
    by_cases hb : refreshDueB s3 now = true
    · simpa [hb] using refresh_value_req_inv _ fs now _ ih
    · have hb0 : refreshDueB s3 now = false := by
        cases hx : refreshDueB s3 now
        · rfl
        · exact absurd hx hb
      simpa [hb0] using ih
  | @val s3 fs now h2 ih =>
    rw [value_required_state]
    unfold refresh_on_timeout
    by_cases hb : refreshDueB s3 now = true
    · simpa [hb] using refresh_value_req_inv _ fs now _ ih
    · have hb0 : refreshDueB s3 now = false := by
        cases hx : refreshDueB s3 now
        · rfl
        · exact absurd hx hb
      simpa [hb0] using ih

/-- Claim C5: refresh_value is all or nothing: when it succeeds the
resulting state stores some refreshed cache value together with the
current instant as last_refresh_time, every other field unchanged, and
when it fails with any error the whole state, in particular
cached_value and last_refresh_time, is exactly as it was. -/
theorem refresh_value_atomic (R : Bool) (parse : String → Except E T)
    (fs : FileState IOE) (now : Nat) (s : FileSource T) :
    ((refresh_value R parse fs now s).2 = Except.ok () →
      ∃ v, (refresh_value R parse fs now s).1
        = { s with value := v, last_refresh := some now })
    ∧ (∀ e, (refresh_value R parse fs now s).2 = Except.error e →
        (refresh_value R parse fs now s).1 = s) := by
  constructor
  · intro hok
    cases fs with
    | missing =>
      cases R with
      | true => simp [refresh_value] at hok
      | false => exact ⟨none, rfl⟩
    | ioError e => simp [refresh_value] at hok
    | contents c =>
      rcases hp : parse (if s.auto_trim then trim c else c) with e | v
      · simp [refresh_value, hp] at hok
      · exact ⟨some v, by simp [refresh_value, hp, set_value]⟩
  · intro e he
    cases fs with
    | missing =>
      cases R with
      | true => rfl
      | false => simp [refresh_value] at he
    | ioError e2 => rfl
    | contents c =>
      rcases hp : parse (if s.auto_trim then trim c else c) with e2 | v
      · simp [refresh_value, hp]
      · simp [refresh_value, hp] at he

/-- Claim C6: for every required source reachable from its constructed
state by the public operations, whenever refresh_on_timeout succeeds
the resulting cache holds a present value, and hence the defensive
value-access-level NoValue branch of the required value operation never
fires. -/
theorem required_no_value_unreachable {T E IOE : Type}
    {parse : String → Except E T} {s : FileSource T}
    (h : @ReachableReq T E IOE parse s) (fs : FileState IOE) (now : Nat) :
    ((refresh_on_timeout true parse fs now s).2 = Except.ok () →
      (refresh_on_timeout true parse fs now s).1.value.isSome = true)
    ∧ (value_required parse fs now s).2 ≠ Except.error ValueError.NoValue := by
  have inv := reachableReq_cache h
  have hA : (refresh_on_timeout true parse fs now s).2 = Except.ok () →
      (refresh_on_timeout true parse fs now s).1.value.isSome = true := by
    intro hok
    unfold refresh_on_timeout at hok ⊢
    by_cases hb : refreshDueB s now = true
    · rw [if_pos hb] at hok ⊢
      cases fs with
      | missing => simp [refresh_value] at hok
      | ioError e => simp [refresh_value] at hok
      | contents c =>
        rcases hp : parse (if s.auto_trim then trim c else c) with e | v
        · simp [refresh_value, hp] at hok
        · simp [refresh_value, hp, set_value]
    · have hb0 : refreshDueB s now = false := by
        cases hx : refreshDueB s now
        · rfl
        · exact absurd hx hb
      rw [if_neg (by simp [hb0])]
      exact inv (refreshDueB_false_lastSome s now hb0)
  refine ⟨hA, ?_⟩
  intro hcontra
  unfold value_required at hcontra
  rcases hr : refresh_on_timeout true parse fs now s with ⟨s2, r⟩
  rw [hr] at hcontra
  cases r with
  | error e => simp at hcontra
  | ok u =>
    have hsome : s2.value.isSome = true := by
      have := hA (by rw [hr])
      rwa [hr] at this
    rcases hv : s2.value with _ | v
    · rw [hv] at hsome
      simp at hsome
    · simp [hv] at hcontra

theorem required_no_value_unreachable_witness :
    ((refresh_on_timeout true parseBool
        (FileState.contents "true" : FileState Unit) 1
        (from_path "conf" : FileSource Bool)).2 = Except.ok () →
      (refresh_on_timeout true parseBool
        (FileState.contents "true" : FileState Unit) 1
        (from_path "conf" : FileSource Bool)).1.value.isSome = true)
    ∧ (value_required parseBool (FileState.contents "true" : FileState Unit) 1
        (from_path "conf" : FileSource Bool)).2
      ≠ Except.error ValueError.NoValue :=
  required_no_value_unreachable
    (@ReachableReq.init Bool String Unit parseBool "conf")
    (FileState.contents "true") 1

/-- Claim C7: when the file exists and its contents, trimmed when
auto_trim is set, fail the parser of T with error e, refresh_value
fails with ParseError e carrying exactly that error and leaves the
state untouched; and each value operation surfaces any refresh error
unchanged, wrapped in the value-access error type. -/
theorem parse_error_propagation (R : Bool) (parse : String → Except E T)
    (fs : FileState IOE) (now : Nat) (s : FileSource T) (c : String)
    (e : E) :
    (parse (if s.auto_trim then trim c else c) = Except.error e →
      refresh_value R parse (FileState.contents c : FileState IOE) now s
        = (s, Except.error (RefreshFileSourceError.ParseError e)))
    ∧ (∀ s2 er, refresh_on_timeout true parse fs now s
          = (s2, Except.error er) →
        value_required parse fs now s
          = (s2, Except.error (ValueError.RefreshFileSourceError er)))
    ∧ (∀ s2 er, refresh_on_timeout false parse fs now s
          = (s2, Except.error er) →
        value_optional parse fs now s
          = (s2, Except.error (ValueError.RefreshFileSourceError er))) := by
  refine ⟨?_, ?_, ?_⟩
  · intro hp
    simp [refresh_value, hp]
  · intro s2 er hre
    unfold value_required
    rw [hre]
  · intro s2 er hre
    unfold value_optional
    rw [hre]

/-- Claim C8: with auto_trim on, refreshing from a file whose raw
contents are two spaces, the word value and a newline gives the same
parse input and the same refresh result as refreshing from a file
containing exactly the word value; with auto_trim off, the raw
contents are handed to the parser verbatim. -/
theorem trimming_law (R : Bool) (parse : String → Except E T) (now : Nat)
    (s : FileSource T) (c : String) :
    (s.auto_trim = true →
        trim "  value\n" = trim "value"
      ∧ refresh_value R parse
            (FileState.contents "  value\n" : FileState IOE) now s
          = refresh_value R parse
            (FileState.contents "value" : FileState IOE) now s)
    ∧ (s.auto_trim = false →
        refresh_value R parse (FileState.contents c : FileState IOE) now s
          = (match parse c with
             | Except.error e =>
               (s, Except.error (RefreshFileSourceError.ParseError e))
             | Except.ok v => (set_value s (some v) now, Except.ok ()))) := by
  constructor
  · intro h
    have e1 : trim "  value\n" = "value" := rfl
    have e2 : trim "value" = "value" := rfl
    refine ⟨by rw [e1, e2], ?_⟩
    simp [refresh_value, h, e1, e2]
  · intro h
    simp [refresh_value, h]

/-- Claim C10: for a required source, a present cache is preserved by
every public operation: each of refresh_value, refresh_on_timeout and
the required value operation leaves the cache present whatever the
filesystem does, and the two configuration mutators never touch it. -/
theorem required_cache_never_cleared (parse : String → Except E T)
    (fs : FileState IOE) (now : Nat) (s : FileSource T) (i : Option Nat)
    (b : Bool) (h : s.value.isSome = true) :
    (refresh_value true parse fs now s).1.value.isSome = true
    ∧ (refresh_on_timeout true parse fs now s).1.value.isSome = true
    ∧ (value_required parse fs now s).1.value.isSome = true
    ∧ (set_refresh_interval s i).value.isSome = true
    ∧ (set_auto_trim s b).value.isSome = true := by
  refine ⟨refresh_value_keeps_some parse fs now s h,
    refresh_on_timeout_keeps_some parse fs now s h, ?_, h, h⟩
  rw [value_required_state]
  exact refresh_on_timeout_keeps_some parse fs now s h

theorem required_cache_never_cleared_witness :
    (refresh_value true parseBool (FileState.missing : FileState Unit) 7
        stickyBoolSource).1.value.isSome = true
    ∧ (refresh_on_timeout true parseBool (FileState.missing : FileState Unit)
        7 stickyBoolSource).1.value.isSome = true
    ∧ (value_required parseBool (FileState.missing : FileState Unit) 7
        stickyBoolSource).1.value.isSome = true
    ∧ (set_refresh_interval stickyBoolSource none).value.isSome = true
    ∧ (set_auto_trim stickyBoolSource true).value.isSome = true :=
  required_cache_never_cleared parseBool FileState.missing 7 stickyBoolSource
    none true rfl

end K8sConfig
